import Mathlib

/-!
# Verification of the psycopg2cffi typecasting core

This development shallowly embeds `psycopg2cffi/_impl/typecasts.py`:
the scalar parsers, the recursive array-literal parser, the interval
parser, and the type registry, and proves properties of the embedding.

Raw wire values are modelled as `Option (List Char)` (`None` vs. a
string), parser failures as `Except` values whose error constructors
correspond to the distinct `raise` sites of the source.
-/

namespace Typecasts

/-- A parsed value: the output domain of the embedded parsers.
`null` models Python `None`, `arr` a (possibly nested) Python list. -/
inductive PValue where
  | null : PValue
  | int (n : Int) : PValue
  | str (s : List Char) : PValue
  | arr (xs : List PValue) : PValue
deriving Repr

/-- Error kinds, one per distinct failure site of the source module
(the spec names them `MalformedArrayError`, `UnbalancedBracesError`,
`ExcessiveDimensionsError`, `ConversionError`, `InvalidScopeError`).
`indexError` models an uncaught out-of-range subscript such as `value[0]`
on an empty string. -/
inductive PyError where
  | malformedArray : PyError
  | unbalancedBraces : PyError
  | excessiveDimensions : PyError
  | conversion : PyError
  | invalidScope : PyError
  | indexError : PyError
  | parseError : PyError
deriving DecidableEq, Repr

/-- Python whitespace characters recognised by `str.strip` / `\s`
(ASCII range, matching byte-string semantics of the source). -/
def isPySpace (c : Char) : Bool :=
  c = ' ' || c = '\t' || c = '\n' || c = '\r' || c = '\x0b' || c = '\x0c'

/-- `\w` for byte strings: ASCII letters, digits and underscore. -/
def isPyWord (c : Char) : Bool :=
  c.isAlpha || c.isDigit || c = '_'

/-- Digit characters `0`-`9`. -/
def isPyDigit (c : Char) : Bool :=
  '0' ≤ c && c ≤ '9'

/-- Numeric value of a digit character. -/
def digitVal (c : Char) : Nat := c.toNat - '0'.toNat

/-- Value of a nonempty all-digit string. -/
def digitsToNat (ds : List Char) : Nat :=
  ds.foldl (fun acc c => 10 * acc + digitVal c) 0

/-- Models Python `int(s)` on a string: optional surrounding whitespace,
an optional single `+`/`-` sign, then one or more decimal digits;
anything else raises (a `ValueError`, folded into `conversion`). -/
def pyInt (s : List Char) : Except PyError Int :=
  let t := (s.dropWhile (fun c => isPySpace c)).reverse.dropWhile
    (fun c => isPySpace c) |>.reverse
  let core : List Char → Except PyError Nat := fun ds =>
    if ds ≠ [] ∧ ds.all (fun c => isPyDigit c) then .ok (digitsToNat ds)
    else .error .conversion
  match t with
  | '-' :: ds => (core ds).map (fun n => -(n : Int))
  | '+' :: ds => (core ds).map (fun n => (n : Int))
  | ds => (core ds).map (fun n => (n : Int))

/-! ## Scalar parsers (source lines 63–110) -/

/-- `parse_unknown(value, length, cursor)`: `None` passes through,
the literal `{}` becomes an empty list, anything else is returned
unchanged. -/
def parse_unknown (value : Option (List Char)) (_length : Option Nat) :
    PValue :=
  match value with
  | none => .null
  | some s => if s = ['{', '}'] then .arr [] else .str s

/-- `parse_string(value, length, cursor)`: identity on the raw value. -/
def parse_string (value : Option (List Char)) (_length : Option Nat) :
    Option (List Char) :=
  value

/-- `parse_integer(value, length, cursor)`:
`int(value) if value is not None else None`. -/
def parse_integer (value : Option (List Char)) (_length : Option Nat) :
    Except PyError (Option Int) :=
  match value with
  | none => .ok none
  | some s => (pyInt s).map some

/-- `parse_longinteger(value, length, cursor)`:
`long(value) if value is not None else None` (Python 2 `long` is an
arbitrary-precision integer parse, same literal grammar as `int`). -/
def parse_longinteger (value : Option (List Char)) (_length : Option Nat) :
    Except PyError (Option Int) :=
  match value with
  | none => .ok none
  | some s => (pyInt s).map some

/-- `parse_float(value, length, cursor)`: the `float(...)` conversion is
an external numeric primitive, taken as the parameter `conv`; the null
short-circuit is the source's. -/
def parse_float (F : Type) (conv : List Char → Except PyError F)
    (value : Option (List Char)) (_length : Option Nat) :
    Except PyError (Option F) :=
  match value with
  | none => .ok none
  | some s => (conv s).map some

/-- `parse_decimal(value, length, cursor)`: `decimal.Decimal(...)` is an
external arbitrary-precision primitive, taken as the parameter `conv`. -/
def parse_decimal (F : Type) (conv : List Char → Except PyError F)
    (value : Option (List Char)) (_length : Option Nat) :
    Except PyError (Option F) :=
  match value with
  | none => .ok none
  | some s => (conv s).map some

/-- `parse_binary(value, length, cursor)`: `PQunescapeBytea` and the
buffer copy are external primitives, taken as the parameter `unescape`;
`None` short-circuits before they run. -/
def parse_binary (B : Type) (unescape : List Char → Except PyError B)
    (value : Option (List Char)) (_length : Option Nat) :
    Except PyError (Option B) :=
  match value with
  | none => .ok none
  | some s => (unescape s).map some

/-- `parse_boolean(value, length, cursor)`:
`value[0] == "t" if value is not None else None`; on the empty string
the subscript `value[0]` raises an `IndexError`. -/
def parse_boolean (value : Option (List Char)) (_length : Option Nat) :
    Except PyError (Option Bool) :=
  match value with
  | none => .ok none
  | some [] => .error .indexError
  | some (c :: _) => .ok (some (c = 't'))

/-- `parse_unicode(value, length, cursor)`: decoding with the connection
encoding is external, taken as the parameter `decode`. -/
def parse_unicode (U : Type) (decode : List Char → Except PyError U)
    (value : Option (List Char)) (_length : Option Nat) :
    Except PyError (Option U) :=
  match value with
  | none => .ok none
  | some s => (decode s).map some

/-! ## The array parser (`parse_array.cast`, source lines 128–188) -/

/-- An element caster as the array parser sees it: the composition
`typecast(self._caster, value, length, cursor)`, taking the raw element
text (or `None` for a `NULL` token) and its length. -/
def ACaster : Type := Option (List Char) → Nat → Except PyError PValue

/-- Element caster built from `parse_integer` (the `INTEGER` descriptor):
the parsed `int` (or `None`) is appended to the current array. -/
def intCaster : ACaster := fun v len =>
  (parse_integer v (some len)).map (fun o =>
    match o with
    | none => PValue.null
    | some n => PValue.int n)

/-- Element caster built from `parse_string` (the `STRING` descriptor). -/
def strCaster : ACaster := fun v len =>
  .ok (match parse_string v (some len) with
    | none => PValue.null
    | some s => PValue.str s)

/-- Token completion (source lines 182–187): a 4-character token whose
lowercasing spells `null` dispatches the element caster on `None`
(length 0); any other accumulated token is dispatched with its literal
text and length.  `Char.toLower` models `str.lower` on the ASCII
range the source deals in. -/
def finishTok (caster : ACaster) (buf : List Char) : Except PyError PValue :=
  if buf.length = 4 ∧ buf.map Char.toLower = ['n', 'u', 'l', 'l'] then
    caster none 0
  else
    caster (some buf) buf.length

/-- The scanner's position in the character stream: between elements
(`top`), or inside an element token with the source's `quotes`,
`escape_char` and `buf` state. -/
inductive TokState where
  | top : TokState
  | tok (quotes : Nat) (escape : Bool) (buf : List Char) : TokState

/-- The main scanning loop of `parse_array.cast` (source lines 136–188)
over the literal's interior (index 1 to `len(s) - 2`), fused into one
character-at-a-time automaton.  `cur` is the sequence on top of the
source's `stack`, `stk` the remaining (parent) entries, so the source's
`len(stack)` is `stk.length + 1`; a finished sub-array is appended to
its parent when its `}` is popped, which coincides with the source's
in-place mutation because the final result is the top of the stack.
A token's terminating `,`/`}` is re-examined by the source's outer
loop; here that re-examination is fused into the token-finishing step. -/
def arrayLoop (caster : ACaster) :
    List Char → TokState → List PValue → List (List PValue) →
    Except PyError (List PValue)
  | [], .top, cur, _stk => .ok cur
  | [], .tok _q _e buf, cur, _stk =>
    match finishTok caster buf with
    | .error e => .error e
    | .ok v => .ok (cur ++ [v])
  | c :: rest, .top, cur, stk =>
    if c = '{' then
      if stk.length + 2 > 16 then .error .excessiveDimensions
      else arrayLoop caster rest .top [] (cur :: stk)
    else if c = '}' then
      match stk with
      | [] => .error .unbalancedBraces
      | parent :: stk2 => arrayLoop caster rest .top (parent ++ [.arr cur]) stk2
    else if c = ',' ∨ c = ' ' then
      arrayLoop caster rest .top cur stk
    else if c = '"' then
      arrayLoop caster rest (.tok 1 false []) cur stk
    else if c = '\\' then
      arrayLoop caster rest (.tok 0 true []) cur stk
    else
      arrayLoop caster rest (.tok 0 false [c]) cur stk
  | c :: rest, .tok quotes escape buf, cur, stk =>
    if escape then
      arrayLoop caster rest (.tok quotes false (buf ++ [c])) cur stk
    else if c = '"' then
      arrayLoop caster rest (.tok (quotes + 1) false buf) cur stk
    else if c = '\\' then
      arrayLoop caster rest (.tok quotes true buf) cur stk
    else if quotes % 2 = 0 ∧ (c = '}' ∨ c = ',') then
      match finishTok caster buf with
      | .error e => .error e
      | .ok v =>
        if c = '}' then
          match stk with
          | [] => .error .unbalancedBraces
          | parent :: stk2 =>
            arrayLoop caster rest .top (parent ++ [.arr (cur ++ [v])]) stk2
        else arrayLoop caster rest .top (cur ++ [v]) stk
    else
      arrayLoop caster rest (.tok quotes false (buf ++ [c])) cur stk

/-- `parse_array.cast(value, length, cursor)`: `None` passes through;
a literal must be at least 2 characters long, start with `{` and end
with `}`, else the parse fails as malformed; the interior is scanned by
`arrayLoop` starting from the one-element stack `[array]`. -/
def parse_array_cast (caster : ACaster) (value : Option (List Char))
    (_length : Option Nat) : Except PyError PValue :=
  match value with
  | none => .ok .null
  | some s =>
    if s.length ≥ 2 ∧ s.head? = some '{' ∧ s.getLast? = some '}' then
      (arrayLoop caster ((s.drop 1).dropLast) .top [] []).map .arr
    else .error .malformedArray

/-- True exactly when a parse failed with the excessive-dimensions error. -/
def isExcessiveError (r : Except PyError PValue) : Bool :=
  match r with
  | .error .excessiveDimensions => true
  | _ => false

/-- The canonical literal of brace-nesting depth `n`:
`n` opening braces, the element `1`, `n` closing braces. -/
def mkDeep (n : Nat) : List Char :=
  List.replicate n '{' ++ '1' :: List.replicate n '}'

/-! ## The interval parser (`parse_interval`, source lines 281–324) -/

/-- A signed duration, modelling `datetime.timedelta`'s normalized
`(days, seconds, microseconds)` representation. -/
structure Timedelta where
  days : Int
  seconds : Int
  microseconds : Int
deriving DecidableEq, Repr

/-- The `datetime.timedelta(days, seconds, microseconds)` constructor:
the three components are summed into total microseconds and renormalized
with floor division so that `0 ≤ seconds < 86400` and
`0 ≤ microseconds < 1000000`. -/
def timedelta (d s us : Int) : Timedelta :=
  let total : Int := (d * 86400 + s) * 1000000 + us
  let rem := Int.fmod total 86400000000
  ⟨Int.fdiv total 86400000000, Int.fdiv rem 1000000, Int.fmod rem 1000000⟩

/-- The tuple `m.groups()` of `_re_interval`: captures for year, month
and day counts, the time component's sign, hours, minutes, seconds and
the fractional-second digits; `none` is an unmatched group. -/
structure IntervalGroups where
  years : Option (List Char)
  months : Option (List Char)
  days : Option (List Char)
  sign : Option (List Char)
  hours : Option (List Char)
  mins : Option (List Char)
  secs : Option (List Char)
  frac : Option (List Char)
deriving DecidableEq, Repr

/-- Matches `-?\+?\d+` at the head of `s`, returning the captured text
and the remainder.  Greedy matching is deterministic here: a present
`-`/`+` never has to be given back, because neither can satisfy the
following `\d+`. -/
def matchNum (s : List Char) : Option (List Char × List Char) :=
  let (neg, s1) : List Char × List Char :=
    match s with
    | '-' :: t => (['-'], t)
    | _ => ([], s)
  let (plus, s2) : List Char × List Char :=
    match s1 with
    | '+' :: t => (['+'], t)
    | _ => ([], s1)
  let ds := s2.takeWhile (fun c => isPyDigit c)
  let r := s2.dropWhile (fun c => isPyDigit c)
  if ds = [] then none else some (neg ++ plus ++ ds, r)

/-- Matches one unit group `(?:(-?\+?\d+)\sL\w+\s?)?` of `_re_interval`
(`L` the unit's first letter, `y`/`m`/`d`): a captured number, one
whitespace, the letter, at least one more word character (greedy), and
an optional trailing whitespace.  Returns the capture and the remainder,
or `none` when the group does not participate. -/
def matchUnit (letter : Char) (s : List Char) :
    Option (List Char × List Char) :=
  match matchNum s with
  | none => none
  | some (cap, r1) =>
    match r1 with
    | c1 :: r2 =>
      if isPySpace c1 then
        match r2 with
        | c2 :: r3 =>
          if c2 = letter then
            let w := r3.takeWhile (fun c => isPyWord c)
            let r4 := r3.dropWhile (fun c => isPyWord c)
            if w = [] then none
            else
              match r4 with
              | c3 :: r5 => if isPySpace c3 then some (cap, r5) else some (cap, r4)
              | [] => some (cap, [])
          else none
        | [] => none
      else none
    | [] => none

/-- The captures of the matched time group
`(?:(-?\+?)(\d+):(\d+):(\d+)(?:\.(\d+))?)?`. -/
structure TimeMatch where
  sign : List Char
  hours : List Char
  mins : List Char
  secs : List Char
  frac : Option (List Char)
deriving DecidableEq, Repr

/-- Matches the time group of `_re_interval` at the head of `s`.  The
sign subgroup `(-?\+?)` can capture the empty string, `-`, `+` or `-+`;
the fraction subgroup is abandoned (its `.` unconsumed) when no digit
follows the dot. -/
def matchTime (s : List Char) : Option (TimeMatch × List Char) :=
  let (sg1, s1) : List Char × List Char :=
    match s with
    | '-' :: t => (['-'], t)
    | _ => ([], s)
  let (sg2, s2) : List Char × List Char :=
    match s1 with
    | '+' :: t => (['+'], t)
    | _ => ([], s1)
  let hs := s2.takeWhile (fun c => isPyDigit c)
  let r1 := s2.dropWhile (fun c => isPyDigit c)
  if hs = [] then none
  else
    match r1 with
    | ':' :: r2 =>
      let ms := r2.takeWhile (fun c => isPyDigit c)
      let r3 := r2.dropWhile (fun c => isPyDigit c)
      if ms = [] then none
      else
        match r3 with
        | ':' :: r4 =>
          let ss := r4.takeWhile (fun c => isPyDigit c)
          let r5 := r4.dropWhile (fun c => isPyDigit c)
          if ss = [] then none
          else
            match r5 with
            | '.' :: r6 =>
              let fs := r6.takeWhile (fun c => isPyDigit c)
              let r7 := r6.dropWhile (fun c => isPyDigit c)
              if fs = [] then some (⟨sg1 ++ sg2, hs, ms, ss, none⟩, r5)
              else some (⟨sg1 ++ sg2, hs, ms, ss, some fs⟩, r7)
            | _ => some (⟨sg1 ++ sg2, hs, ms, ss, none⟩, r5)
        | _ => none
    | _ => none

/-- The anchored match of `_re_interval` against `s`: the four optional
groups are tried left to right, each consuming input exactly when it
participates.  Since every group is optional and nothing follows them,
the leftmost greedy attempt of the backtracking engine is final, so the
match is deterministic. -/
def matchIntervalGroups (s : List Char) : IntervalGroups :=
  let (y, s1) : Option (List Char) × List Char :=
    match matchUnit 'y' s with
    | some (cap, r) => (some cap, r)
    | none => (none, s)
  let (mo, s2) : Option (List Char) × List Char :=
    match matchUnit 'm' s1 with
    | some (cap, r) => (some cap, r)
    | none => (none, s1)
  let (d, s3) : Option (List Char) × List Char :=
    match matchUnit 'd' s2 with
    | some (cap, r) => (some cap, r)
    | none => (none, s2)
  match matchTime s3 with
  | some (tm, _) =>
    ⟨y, mo, d, some tm.sign, some tm.hours, some tm.mins, some tm.secs, tm.frac⟩
  | none => ⟨y, mo, d, none, none, none, none, none⟩

/-- `_re_interval.match(value)`: a pattern made only of optional groups
matches (possibly with zero width) at the start of every string, so the
result is never `None` — every group may simply not participate. -/
def re_interval_match (s : List Char) : Option IntervalGroups :=
  some (matchIntervalGroups s)

/-- `parse_interval(value, length, cursor)` (source lines 289–324):
null passthrough; on a match, days are accumulated from the day, month
(×30) and year (×365) captures, the `HH:MM:SS` captures are summed into
seconds, the fractional capture is right-padded with zeros to 6 digits
then truncated to 6, a `-` sign negates both seconds and microseconds,
and the result is a normalized `timedelta`.  The un-matched branch
raises, mirroring the source's dead `raise ValueError`. -/
def parse_interval (value : Option (List Char)) (_length : Option Nat) :
    Except PyError (Option Timedelta) :=
  match value with
  | none => .ok none
  | some s =>
    match re_interval_match s with
    | none => .error .parseError
    | some g => do
      let days0 : Int ←
        match g.days with
        | some d => pyInt d
        | none => pure 0
      let days1 : Int ←
        match g.months with
        | some mo => do pure (days0 + (← pyInt mo) * 30)
        | none => pure days0
      let days2 : Int ←
        match g.years with
        | some y => do pure (days1 + (← pyInt y) * 365)
        | none => pure days1
      match g.hours with
      | some hs => do
        let h ← pyInt hs
        let mi ← pyInt (g.mins.getD [])
        let se ← pyInt (g.secs.getD [])
        let secs := h * 3600 + mi * 60 + se
        let micros : Int ←
          match g.frac with
          | some f => pyInt ((f ++ List.replicate (6 - f.length) '0').take 6)
          | none => pure 0
        if g.sign = some ['-'] then
          pure (some (timedelta days2 (-secs) (-micros)))
        else
          pure (some (timedelta days2 secs micros))
      | none => pure (some (timedelta days2 0 0))

/-! ## Type descriptors and the registry (`Type`, `register_type`,
`_default_type`, source lines 15–47 and 343–392) -/

/-- A reference to one of the module's parser functions; `array elem`
is `parse_array(...)` over the element descriptor's parser.  Used as
the `caster` field of a descriptor, where only the identity of the
bound function matters. -/
inductive CasterTag where
  | binary : CasterTag
  | datetime : CasterTag
  | float : CasterTag
  | integer : CasterTag
  | string : CasterTag
  | boolean : CasterTag
  | date : CasterTag
  | decimal : CasterTag
  | interval : CasterTag
  | longinteger : CasterTag
  | time : CasterTag
  | unknown : CasterTag
  | array (elem : CasterTag) : CasterTag
deriving DecidableEq, Repr

/-- The source's `Type` class (renamed: `Type` is reserved in Lean):
a name, the matched type identifiers, and the bound parser. -/
structure TypeObj where
  name : String
  values : List Int
  caster : CasterTag
deriving DecidableEq, Repr

/-- One Python dict assignment `typecasts[value] = type_obj`: replace
the first binding of the key, else append (insertion order preserved,
as for a Python dict). -/
def mapSet : List (Int × TypeObj) → Int → TypeObj → List (Int × TypeObj)
  | [], k, v => [(k, v)]
  | (k1, v1) :: t, k, v =>
    if k1 = k then (k, v) :: t else (k1, v1) :: mapSet t k v

/-- A `scope` argument: a connection (carrying its `_typecasts`
mapping), a cursor (likewise), or any other object, of which only its
Python truthiness matters to the source. -/
inductive Scope where
  | connection (typecasts : List (Int × TypeObj)) : Scope
  | cursor (typecasts : List (Int × TypeObj)) : Scope
  | other (truthy : Bool) : Scope
deriving DecidableEq, Repr

/-- Python truthiness of the `scope` argument as tested by `if scope:`:
`None` is falsy, connection and cursor objects are truthy (no custom
`__bool__`), any other object carries its own truthiness (e.g. `0` is
falsy). -/
def scopeTruthy : Option Scope → Bool
  | none => false
  | some (.connection _) => true
  | some (.cursor _) => true
  | some (.other b) => b

/-- Which mapping a registration wrote to. -/
inductive TCKind where
  | globalScope : TCKind
  | connectionScope : TCKind
  | cursorScope : TCKind
deriving DecidableEq, Repr

/-- The `for value in type_obj.values: typecasts[value] = type_obj`
loop.  When the selected `typecasts` is `None` (unrecognized truthy
scope), the first assignment raises — the `TypeError` from subscribing
`None`, the failure the spec names `InvalidScopeError`; with no values
the loop body never runs and nothing is touched. -/
def assignLoop : Option (TCKind × List (Int × TypeObj)) → List Int →
    TypeObj → Except PyError (Option (TCKind × List (Int × TypeObj)))
  | tc, [], _ => .ok tc
  | none, _ :: _, _ => .error .invalidScope
  | some (k, m), v :: rest, t => assignLoop (some (k, mapSet m v t)) rest t

/-- `register_type(type_obj, scope)` (source lines 33–47): the target
mapping is the global `string_types` when `scope` is falsy, the scope's
own `_typecasts` for a connection or cursor, and `None` otherwise; then
every identifier in `values` is bound to the descriptor.  Returns the
updated mapping tagged with its scope kind (or `None` untouched when
`values` is empty under an unrecognized scope). -/
def register_type (t : TypeObj) (scope : Option Scope)
    (string_types : List (Int × TypeObj)) :
    Except PyError (Option (TCKind × List (Int × TypeObj))) :=
  let typecasts : Option (TCKind × List (Int × TypeObj)) :=
    if scopeTruthy scope then
      match scope with
      | some (.connection m) => some (.connectionScope, m)
      | some (.cursor m) => some (.cursorScope, m)
      | _ => none
    else some (.globalScope, string_types)
  assignLoop typecasts t.values t

/-- The effect of one global registration (`register_type` with no
scope): bind every identifier in `values`, in order. -/
def registerGlobal (m : List (Int × TypeObj)) (t : TypeObj) :
    List (Int × TypeObj) :=
  t.values.foldl (fun acc v => mapSet acc v t) m

/-- The `NUMBER` descriptor (source line 353): six identifiers, all
bound to `parse_float`. -/
def NUMBER : TypeObj := ⟨"NUMBER", [20, 33, 21, 701, 700, 1700], .float⟩

/-- The module-initialization registrations of `_default_type`, in
source order (lines 351–392); `UNICODE` and `UNICODEARRAY` are
constructed but never registered. -/
def defaultTypes : List TypeObj :=
  [⟨"BINARY", [17], .binary⟩,
   ⟨"DATETIME", [1114, 1184, 704, 1186], .datetime⟩,
   NUMBER,
   ⟨"ROWID", [26], .integer⟩,
   ⟨"STRING", [19, 18, 25, 1042, 1043], .string⟩,
   ⟨"BOOLEAN", [16], .boolean⟩,
   ⟨"DATE", [1082], .date⟩,
   ⟨"DECIMAL", [1700], .decimal⟩,
   ⟨"FLOAT", [701, 700], .float⟩,
   ⟨"INTEGER", [23, 21], .integer⟩,
   ⟨"INTERVAL", [704, 1186], .interval⟩,
   ⟨"LONGINTEGER", [20], .longinteger⟩,
   ⟨"TIME", [1083, 1266], .time⟩,
   ⟨"UNKNOWN", [705], .unknown⟩,
   ⟨"BINARYARRAY", [1001], .array .binary⟩,
   ⟨"BOOLEANARRAY", [1000], .array .boolean⟩,
   ⟨"DATEARRAY", [1182], .array .date⟩,
   ⟨"DATETIMEARRAY", [1115, 1185], .array .datetime⟩,
   ⟨"DECIMALARRAY", [1231], .array .decimal⟩,
   ⟨"FLOATARRAY", [1017, 1021, 1022], .array .float⟩,
   ⟨"INTEGERARRAY", [1005, 1006, 1007], .array .integer⟩,
   ⟨"INTERVALARRAY", [1187], .array .interval⟩,
   ⟨"LONGINTEGERARRAY", [1016], .array .longinteger⟩,
   ⟨"ROWIDARRAY", [1013, 1028], .array .integer⟩,
   ⟨"STRINGARRAY", [1002, 1003, 1009, 1014, 1015], .array .string⟩,
   ⟨"TIMEARRAY", [1183, 1270], .array .time⟩]

/-- The global `string_types` mapping after module initialization. -/
def string_types_init : List (Int × TypeObj) :=
  defaultTypes.foldl registerGlobal []

/-- The global mapping after the first three registrations, i.e. right
after `NUMBER` was registered. -/
def afterNumber : List (Int × TypeObj) :=
  (defaultTypes.take 3).foldl registerGlobal []

/-! ## Well-formed literals as syntax trees

To state C1's universal sentence — every well-formed literal comes back
as its base-level sequence — well-formed array literals are generated
from a syntax tree of plain (unquoted, unescaped) tokens, printed in
the server's canonical form, and parsed back. -/

/-- A character that the tokenizer treats as ordinary inside a bare
token: not a quote, escape, brace, comma or space. -/
def plainChar (c : Char) : Bool :=
  !(c = '"' || c = '\\' || c = '{' || c = '}' || c = ',' || c = ' ')

/-- A bare element token: nonempty, made of ordinary characters, and
not spelling the null sentinel. -/
def plainTok (tok : List Char) : Bool :=
  !tok.isEmpty && tok.all plainChar &&
    !(tok.length = 4 && tok.map Char.toLower = ['n', 'u', 'l', 'l'])

/-- Positions at which an element may legally end: end of the literal's
interior, or just before a separating comma or a closing brace. -/
def restOK : List Char → Bool
  | [] => true
  | c :: _ => c = ',' || c = '}'

mutual
/-- A well-formed array-literal syntax tree: a bare token, or a braced
sequence of subtrees. -/
inductive STree where
  | leaf (tok : List Char) : STree
  | node (ts : SForest) : STree
/-- The (possibly empty) comma-separated children of a node. -/
inductive SForest where
  | nil : SForest
  | cons (t : STree) (ts : SForest) : SForest
end

mutual
/-- The canonical literal text of a tree. -/
def STree.print : STree → List Char
  | .leaf tok => tok
  | .node ts => '{' :: SForest.printInner ts ++ ['}']
/-- The comma-joined literal texts of a forest. -/
def SForest.printInner : SForest → List Char
  | .nil => []
  | .cons t .nil => t.print
  | .cons t (.cons u ts) => t.print ++ ',' :: SForest.printInner (.cons u ts)
end

mutual
/-- The parsed value a tree denotes under the string element caster. -/
def STree.denote : STree → PValue
  | .leaf tok => .str tok
  | .node ts => .arr (SForest.denoteF ts)
/-- The parsed values a forest denotes. -/
def SForest.denoteF : SForest → List PValue
  | .nil => []
  | .cons t ts => STree.denote t :: SForest.denoteF ts
end

mutual
/-- Brace-nesting depth of a tree (a bare token has depth 0). -/
def STree.depth : STree → Nat
  | .leaf _ => 0
  | .node ts => SForest.depthF ts + 1
/-- Maximal depth over a forest. -/
def SForest.depthF : SForest → Nat
  | .nil => 0
  | .cons t ts => max (STree.depth t) (SForest.depthF ts)
end

mutual
/-- Well-formedness: every leaf is a plain bare token. -/
def STree.wf : STree → Bool
  | .leaf tok => plainTok tok
  | .node ts => SForest.wfF ts
/-- Well-formedness over a forest. -/
def SForest.wfF : SForest → Bool
  | .nil => true
  | .cons t ts => STree.wf t && SForest.wfF ts
end

/-! ## Theorems -/

/-- Scanning a run of `m` opening braces overflows the stack whenever the
current stack depth plus `m` reaches the source's hard bound of 16
parents: each `{` pushes, and the push taking `len(stack)` above 16
raises the excessive-dimensions error before anything later is read. -/
theorem arrayLoop_replicate_open (caster : ACaster) (m : Nat) :
    ∀ (rest : List Char) (cur : List PValue) (stk : List (List PValue)),
      16 ≤ stk.length + m → 1 ≤ m →
      arrayLoop caster (List.replicate m '{' ++ rest) .top cur stk =
        .error .excessiveDimensions := by
  induction m with
  | zero => intro rest cur stk _ h1; omega
  | succ m ih =>
    intro rest cur stk hbound _
    rw [List.replicate_succ, List.cons_append]
    by_cases hfull : stk.length + 2 > 16
    · simp [arrayLoop, hfull]
    · have hm : 1 ≤ m := by omega
      simp only [arrayLoop, if_pos rfl, if_neg hfull]
      exact ih rest [] (cur :: stk) (by simp; omega) hm

/-- A literal opening with 17 braces (and well delimited) overflows the
16-deep stack no matter what follows the braces. -/
theorem seventeen_opens_excessive (caster : ACaster) (rest : List Char) :
    parse_array_cast caster
      (some (List.replicate 17 '{' ++ rest ++ ['}'])) none =
      .error .excessiveDimensions := by
  have hrepl : List.replicate 17 '{' = '{' :: List.replicate 16 '{' := by
    simp [List.replicate_succ]
  have hguard :
      (List.replicate 17 '{' ++ rest ++ ['}']).length ≥ 2 ∧
      (List.replicate 17 '{' ++ rest ++ ['}']).head? = some '{' ∧
      (List.replicate 17 '{' ++ rest ++ ['}']).getLast? = some '}' := by
    refine ⟨by simp, ?_, ?_⟩
    · rw [hrepl]; simp
    · exact List.getLast?_concat _
  have hinner :
      ((List.replicate 17 '{' ++ rest ++ ['}']).drop 1).dropLast =
        List.replicate 16 '{' ++ rest := by
    rw [List.append_assoc, hrepl, List.cons_append, List.drop_one,
      List.tail_cons, ← List.append_assoc, List.dropLast_concat]
  simp only [parse_array_cast, if_pos hguard, hinner]
  rw [arrayLoop_replicate_open caster 16 rest [] [] (by simp) (by omega)]
  rfl

/-- `register_type` with the selected mapping present just runs the
assignment loop, i.e. folds `mapSet` over the values. -/
theorem assignLoop_some (k : TCKind) (m : List (Int × TypeObj))
    (vals : List Int) (t : TypeObj) :
    assignLoop (some (k, m)) vals t =
      .ok (some (k, vals.foldl (fun acc v => mapSet acc v t) m)) := by
  induction vals generalizing m with
  | nil => rfl
  | cons v rest ih => simp [assignLoop, List.foldl_cons, ih]

/-- A global registration (absent scope) is exactly `registerGlobal`
applied to the global mapping — the shape in which the
module-initialization sequence is folded. -/
theorem register_type_global (t : TypeObj) (m : List (Int × TypeObj)) :
    register_type t none m = .ok (some (.globalScope, registerGlobal m t)) := by
  simp [register_type, scopeTruthy, assignLoop_some, registerGlobal]

/-- Scanning ordinary characters in token mode just accumulates them. -/
theorem arrayLoop_scan_plain (caster : ACaster) (cs : List Char) :
    cs.all plainChar = true →
    ∀ (rest buf : List Char) (cur : List PValue) (stk : List (List PValue)),
      arrayLoop caster (cs ++ rest) (.tok 0 false buf) cur stk =
        arrayLoop caster rest (.tok 0 false (buf ++ cs)) cur stk := by
  induction cs with
  | nil => intro _ rest buf cur stk; simp
  | cons c t ih =>
    intro hall rest buf cur stk
    simp only [List.all_cons, Bool.and_eq_true] at hall
    obtain ⟨hc, ht⟩ := hall
    simp only [plainChar, Bool.not_eq_eq_eq_not, Bool.not_true,
      Bool.or_eq_false_iff, decide_eq_false_iff_not] at hc
    obtain ⟨⟨⟨⟨⟨h1, h2⟩, h3⟩, h4⟩, h5⟩, h6⟩ := hc
    rw [List.cons_append,
      show arrayLoop caster (c :: (t ++ rest)) (.tok 0 false buf) cur stk =
        arrayLoop caster (t ++ rest) (.tok 0 false (buf ++ [c])) cur stk from by
        simp [arrayLoop, h1, h2, h4, h5],
      ih ht rest (buf ++ [c]) cur stk]
    simp

/-- Completion of a plain token under the string caster yields the
token's literal text. -/
theorem finishTok_plain (tok : List Char) (h : plainTok tok = true) :
    finishTok strCaster tok = .ok (.str tok) := by
  simp only [plainTok, Bool.and_eq_true, Bool.not_eq_eq_eq_not, Bool.not_true,
    Bool.and_eq_false_iff, decide_eq_false_iff_not] at h
  have hnull : ¬(tok.length = 4 ∧ tok.map Char.toLower = ['n', 'u', 'l', 'l']) := by
    rcases h.2 with h4 | hmap
    · exact fun hand => h4 hand.1
    · exact fun hand => hmap hand.2
  simp [finishTok, hnull, strCaster, parse_string]

mutual
/-- Processing one printed well-formed item from between-elements state
appends exactly its denotation to the current sequence, for any stack
shallow enough and any legal continuation. -/
theorem STree.sim : ∀ (t : STree), t.wf = true →
    ∀ (rest : List Char) (cur : List PValue) (stk : List (List PValue)),
      restOK rest = true → stk.length + 1 + t.depth ≤ 16 →
      arrayLoop strCaster (t.print ++ rest) .top cur stk =
        arrayLoop strCaster rest .top (cur ++ [t.denote]) stk
  | .leaf tok => by
    intro hwf rest cur stk hrest _hd
    rw [STree.wf] at hwf
    have hne : ¬tok.isEmpty := by
      intro hempty
      simp [plainTok, hempty] at hwf
    cases tok with
    | nil => simp [List.isEmpty_nil] at hne
    | cons c t =>
      have hall : (c :: t).all plainChar = true := by
        simp only [plainTok, Bool.and_eq_true] at hwf
        exact hwf.1.2
      have hc : plainChar c = true := by
        simp only [List.all_cons, Bool.and_eq_true] at hall
        exact hall.1
      have ht : t.all plainChar = true := by
        simp only [List.all_cons, Bool.and_eq_true] at hall
        exact hall.2
      simp only [plainChar, Bool.not_eq_eq_eq_not, Bool.not_true,
        Bool.or_eq_false_iff, decide_eq_false_iff_not] at hc
      obtain ⟨⟨⟨⟨⟨h1, h2⟩, h3⟩, h4⟩, h5⟩, h6⟩ := hc
      rw [STree.print, List.cons_append,
        show arrayLoop strCaster (c :: (t ++ rest)) .top cur stk =
          arrayLoop strCaster (t ++ rest) (.tok 0 false [c]) cur stk from by
          simp [arrayLoop, h1, h2, h3, h4, h5, h6],
        arrayLoop_scan_plain strCaster t ht rest [c] cur stk]
      have hfin : finishTok strCaster (c :: t) = .ok (.str (c :: t)) :=
        finishTok_plain (c :: t) hwf
      cases rest with
      | nil => simp [arrayLoop, hfin, STree.denote]
      | cons r rs =>
        simp only [restOK, Bool.or_eq_true, decide_eq_true_eq] at hrest
        rcases hrest with hr | hr
        · subst hr
          simp [arrayLoop, hfin, STree.denote]
        · subst hr
          cases stk with
          | nil => simp [arrayLoop, hfin, STree.denote]
          | cons parent stk2 => simp [arrayLoop, hfin, STree.denote]
  | .node ts => by
    intro hwf rest cur stk _hrest hd
    rw [STree.wf] at hwf
    have hdepth : stk.length + 2 + SForest.depthF ts ≤ 16 := by
      rw [STree.depth] at hd; omega
    rw [STree.print,
      show ('{' :: SForest.printInner ts ++ ['}']) ++ rest =
        '{' :: (SForest.printInner ts ++ ('}' :: rest)) from by simp,
      show arrayLoop strCaster
          ('{' :: (SForest.printInner ts ++ ('}' :: rest))) .top cur stk =
        arrayLoop strCaster (SForest.printInner ts ++ ('}' :: rest)) .top []
          (cur :: stk) from by
        have hnof : ¬(stk.length + 2 > 16) := by omega
        simp [arrayLoop, hnof],
      SForest.simF ts hwf ('}' :: rest) [] (cur :: stk) (by rfl)
        (by simp; omega)]
    simp [arrayLoop, STree.denote]

/-- Processing a printed well-formed forest appends its denotations. -/
theorem SForest.simF : ∀ (ts : SForest), ts.wfF = true →
    ∀ (rest : List Char) (cur : List PValue) (stk : List (List PValue)),
      restOK rest = true → stk.length + 1 + ts.depthF ≤ 16 →
      arrayLoop strCaster (ts.printInner ++ rest) .top cur stk =
        arrayLoop strCaster rest .top (cur ++ ts.denoteF) stk
  | .nil => by
    intro _ rest cur stk _ _
    simp [SForest.printInner, SForest.denoteF]
  | .cons t .nil => by
    intro hwf rest cur stk hrest hd
    rw [SForest.wfF, Bool.and_eq_true] at hwf
    rw [SForest.depthF] at hd
    rw [SForest.printInner,
      STree.sim t hwf.1 rest cur stk hrest (by omega)]
    simp [SForest.denoteF]
  | .cons t (.cons u us) => by
    intro hwf rest cur stk hrest hd
    rw [SForest.wfF, Bool.and_eq_true] at hwf
    rw [SForest.depthF] at hd
    rw [SForest.printInner,
      show (t.print ++ ',' :: SForest.printInner (.cons u us)) ++ rest =
        t.print ++ (',' :: (SForest.printInner (.cons u us) ++ rest)) from by
        simp,
      STree.sim t hwf.1 (',' :: (SForest.printInner (.cons u us) ++ rest))
        cur stk (by rfl) (by omega),
      show arrayLoop strCaster
          (',' :: (SForest.printInner (.cons u us) ++ rest)) .top
          (cur ++ [t.denote]) stk =
        arrayLoop strCaster (SForest.printInner (.cons u us) ++ rest) .top
          (cur ++ [t.denote]) stk from by simp [arrayLoop],
      SForest.simF (.cons u us) hwf.2 rest (cur ++ [t.denote]) stk hrest
        (by omega)]
    simp [SForest.denoteF]
end

/-- The canonical print of a well-formed forest of depth at most 15
under one outer brace pair parses to exactly its denotation. -/
theorem parse_print_wf (ts : SForest) (hwf : SForest.wfF ts = true)
    (hd : SForest.depthF ts ≤ 15) :
    parse_array_cast strCaster (some (STree.print (.node ts))) none =
      .ok (STree.denote (.node ts)) := by
  rw [STree.print]
  have hguard : ('{' :: SForest.printInner ts ++ ['}']).length ≥ 2 ∧
      ('{' :: SForest.printInner ts ++ ['}']).head? = some '{' ∧
      ('{' :: SForest.printInner ts ++ ['}']).getLast? = some '}' := by
    refine ⟨by simp, by simp, ?_⟩
    rw [show '{' :: SForest.printInner ts ++ ['}'] =
        ('{' :: SForest.printInner ts) ++ ['}'] from by simp]
    exact List.getLast?_concat _
  have hinner : (('{' :: SForest.printInner ts ++ ['}']).drop 1).dropLast =
      SForest.printInner ts := by
    simp
  simp only [parse_array_cast, if_pos hguard, hinner]
  rw [show SForest.printInner ts = SForest.printInner ts ++ [] from by simp,
    SForest.simF ts hwf [] [] [] (by rfl) (by simp; omega)]
  simp [arrayLoop, STree.denote, Except.map]

/-- C1: for every well-formed array literal — the canonical print of a
well-formed tree whose nesting depth is at most 16 — the parser returns
the base-level (outermost) sequence once the outer brace is consumed;
in particular, dispatching `\x7b1,2,3\x7d` with the integer element
parser yields `[1,2,3]`, and `\x7b\x7b1,2\x7d,\x7b3,4\x7d\x7d` yields
`[[1,2],[3,4]]`. -/
theorem array_parse_returns_base :
    (∀ ts : SForest, SForest.wfF ts = true → SForest.depthF ts ≤ 15 →
      parse_array_cast strCaster (some (STree.print (.node ts))) none =
        .ok (STree.denote (.node ts))) ∧
    parse_array_cast intCaster (some ("\x7b1,2,3\x7d".toList)) none =
      .ok (.arr [.int 1, .int 2, .int 3]) ∧
    parse_array_cast intCaster
      (some ("\x7b\x7b1,2\x7d,\x7b3,4\x7d\x7d".toList)) none =
      .ok (.arr [.arr [.int 1, .int 2], .arr [.int 3, .int 4]]) :=
  ⟨fun ts hwf hd => parse_print_wf ts hwf hd, rfl, rfl⟩

/-- Witness: the well-formed literal `\x7ba,\x7bb\x7d\x7d` of depth 2
parses to its base sequence `[a, [b]]`. -/
theorem array_parse_returns_base_witness :
    parse_array_cast strCaster
      (some (STree.print (.node (.cons (.leaf ['a'])
        (.cons (.node (.cons (.leaf ['b']) .nil)) .nil))))) none =
      .ok (STree.denote (.node (.cons (.leaf ['a'])
        (.cons (.node (.cons (.leaf ['b']) .nil)) .nil)))) :=
  array_parse_returns_base.1
    (.cons (.leaf ['a']) (.cons (.node (.cons (.leaf ['b']) .nil)) .nil))
    (by decide) (by decide)

/-- C2: the array parser accepts nesting up to depth 16 inclusive and
errors beyond: the canonical depth-`n` literal raises no
excessive-dimensions error for `n ≤ 16`, no well-formed literal of
depth at most 16 raises it, and any well-delimited literal whose first
17 characters are opening braces raises it. -/
theorem array_nesting_depth_guard :
    (∀ n, n ≤ 16 → 1 ≤ n →
      isExcessiveError (parse_array_cast intCaster (some (mkDeep n)) none) =
        false) ∧
    (∀ ts : SForest, SForest.wfF ts = true → SForest.depthF ts ≤ 15 →
      isExcessiveError
        (parse_array_cast strCaster (some (STree.print (.node ts))) none) =
        false) ∧
    (∀ rest : List Char,
      parse_array_cast intCaster
        (some (List.replicate 17 '{' ++ rest ++ ['}'])) none =
        .error .excessiveDimensions) :=
  ⟨by decide,
   fun ts hwf hd => by rw [parse_print_wf ts hwf hd]; rfl,
   fun rest => seventeen_opens_excessive intCaster rest⟩

/-- Witness: the depth-16 literal parses without a depth error. -/
theorem array_nesting_depth_guard_witness :
    isExcessiveError (parse_array_cast intCaster (some (mkDeep 16)) none) =
      false :=
  array_nesting_depth_guard.1 16 (by decide) (by decide)

/-- C3 (amended): the structural guards reject `"\x7b1,2"` (no closing
brace) and `"1,2\x7d"` (no opening brace) as malformed; the one-character
input `"\x7d"` fails the minimum-length structural check and is likewise
rejected as malformed (not as unbalanced braces); unbalanced braces are
reported when a well-delimited literal pops the stack empty, as in
`"\x7b\x7d\x7d"`. -/
theorem array_structural_guards :
    parse_array_cast intCaster (some ("\x7b1,2".toList)) none =
      .error .malformedArray ∧
    parse_array_cast intCaster (some ("1,2\x7d".toList)) none =
      .error .malformedArray ∧
    parse_array_cast intCaster (some ("\x7d".toList)) none =
      .error .malformedArray ∧
    parse_array_cast intCaster (some ("\x7b\x7d\x7d".toList)) none =
      .error .unbalancedBraces :=
  ⟨rfl, rfl, rfl, rfl⟩

/-- C3 counterexample: the one-character input `"\x7d"` raises the
malformed-array error — its length-1 literal never reaches the brace
matching — not the unbalanced-braces error the claim states. -/
theorem closing_brace_alone_malformed :
    parse_array_cast intCaster (some ("\x7d".toList)) none =
      .error .malformedArray ∧
    (Except.error PyError.malformedArray : Except PyError PValue) ≠
      .error .unbalancedBraces :=
  ⟨rfl, by simp⟩

/-- C4 (amended): token completion treats exactly the accumulated
4-character tokens whose lowercasing spells `null` as an element-level
null — the quote and escape characters are stripped before this test,
so a double-quoted `"NULL"` also becomes null — and every other token
is passed to the element caster as its literal text. -/
theorem null_token_detection (caster : ACaster) (buf : List Char) :
    (buf.length = 4 ∧ buf.map Char.toLower = ['n', 'u', 'l', 'l'] →
      finishTok caster buf = caster none 0) ∧
    (¬(buf.length = 4 ∧ buf.map Char.toLower = ['n', 'u', 'l', 'l']) →
      finishTok caster buf = caster (some buf) buf.length) ∧
    parse_array_cast intCaster (some ("\x7b1,NULL,3\x7d".toList)) none =
      .ok (.arr [.int 1, .null, .int 3]) ∧
    parse_array_cast strCaster (some ("\x7bNuLl\x7d".toList)) none =
      .ok (.arr [.null]) ∧
    parse_array_cast strCaster (some ("\x7bNULLS\x7d".toList)) none =
      .ok (.arr [.str ("NULLS".toList)]) ∧
    parse_array_cast strCaster (some ("\x7b\x22NULL\x22\x7d".toList)) none =
      .ok (.arr [.null]) :=
  ⟨fun h => by simp [finishTok, h.1, h.2],
   fun h => by simp [finishTok, h],
   rfl, rfl, rfl, rfl⟩

/-- Witness: the lone lowercase token `null` is dispatched as `None`. -/
theorem null_token_detection_witness :
    finishTok strCaster ['n', 'u', 'l', 'l'] = strCaster none 0 :=
  (null_token_detection strCaster ['n', 'u', 'l', 'l']).1 (by decide)

/-- C4 counterexample: a double-quoted token spelling `NULL` yields a
null element, not the literal text `NULL` the claim promises. -/
theorem quoted_null_counterexample :
    parse_array_cast strCaster (some ("\x7b\x22NULL\x22\x7d".toList)) none =
      .ok (.arr [.null]) ∧
    (Except.ok (PValue.arr [.null]) : Except PyError PValue) ≠
      .ok (.arr [.str ("NULL".toList)]) :=
  ⟨rfl, by simp⟩

/-- C5 (amended): on a non-null input where none of the grammar's
optional groups participates, `parse_interval` does not fail — the
all-optional pattern still matches with zero width, every capture is
`None`, and the parser returns the zero duration `timedelta(0, 0, 0)`;
the parse-error branch is unreachable. -/
theorem interval_unmatched_returns_zero (s : List Char)
    (h : matchIntervalGroups s =
      ⟨none, none, none, none, none, none, none, none⟩) :
    parse_interval (some s) none = .ok (some (timedelta 0 0 0)) := by
  simp [parse_interval, re_interval_match, h]
  rfl

/-- Witness: `garbage` matches no group and yields the zero duration. -/
theorem interval_unmatched_returns_zero_witness :
    parse_interval (some ("garbage".toList)) none =
      .ok (some (timedelta 0 0 0)) :=
  interval_unmatched_returns_zero ("garbage".toList) (by rfl)

/-- C5 counterexample: `garbage` matches none of the grammar's optional
groups, yet `parse_interval` returns the zero duration instead of
failing with a parse error. -/
theorem interval_unmatched_counterexample :
    matchIntervalGroups ("garbage".toList) =
      ⟨none, none, none, none, none, none, none, none⟩ ∧
    parse_interval (some ("garbage".toList)) none =
      .ok (some (timedelta 0 0 0)) ∧
    (Except.ok (some (timedelta 0 0 0)) : Except PyError (Option Timedelta)) ≠
      .error .parseError :=
  ⟨rfl, rfl, by simp⟩

/-- C6: interval normalization — `2 years 1 mon 3 days 10:01:39.1`
parses to exactly 763 days (3 + 1×30 + 2×365), 36099 seconds, 100000
microseconds; a lone month contributes 30 days and a lone year 365;
a 1-digit fraction is right-padded to 6 digits (`.5` → 500000 µs);
and a `-` sign on the time component negates both the seconds and the
microseconds before `timedelta` renormalizes them. -/
theorem interval_normalization :
    parse_interval (some ("2 years 1 mon 3 days 10:01:39.1".toList)) none =
      .ok (some (timedelta 763 36099 100000)) ∧
    timedelta 763 36099 100000 = ⟨763, 36099, 100000⟩ ∧
    parse_interval (some ("1 mon".toList)) none =
      .ok (some (timedelta 30 0 0)) ∧
    parse_interval (some ("2 years".toList)) none =
      .ok (some (timedelta 730 0 0)) ∧
    parse_interval (some ("00:00:00.5".toList)) none =
      .ok (some (timedelta 0 0 500000)) ∧
    parse_interval (some ("-10:01:39.1".toList)) none =
      .ok (some (timedelta 0 (-36099) (-100000))) ∧
    timedelta 0 (-36099) (-100000) = ⟨-1, 50300, 900000⟩ :=
  ⟨rfl, by decide, rfl, rfl, rfl, rfl, by decide⟩

/-- C8 (amended): `register_type` fails — with the failure the spec
names `InvalidScopeError` — when `scope` is a truthy value that is
neither a connection nor a cursor and the descriptor has at least one
identifier; the error interrupts the loop before any mapping is
written.  (A falsy non-null scope is instead treated like an absent
scope: see the counterexample.) -/
theorem register_type_invalid_scope (t : TypeObj)
    (m : List (Int × TypeObj)) (h : t.values ≠ []) :
    register_type t (some (.other true)) m = .error .invalidScope := by
  cases hv : t.values with
  | nil => exact absurd hv h
  | cons a l => simp [register_type, scopeTruthy, assignLoop, hv]

/-- Witness: a one-identifier descriptor under the truthy unrecognized
scope fails. -/
theorem register_type_invalid_scope_witness :
    register_type ⟨"BOOLEAN", [16], .boolean⟩ (some (.other true)) [] =
      .error .invalidScope :=
  register_type_invalid_scope ⟨"BOOLEAN", [16], .boolean⟩ [] (by decide)

/-- C8 counterexample: a falsy non-null scope (Python `0`, say) is not
rejected — `if scope:` tests truthiness, not nullness — and the
registration silently lands in the *global* mapping, so the claim's
"fails with InvalidScopeError and modifies no mapping" is false for it. -/
theorem register_type_falsy_scope_counterexample :
    register_type ⟨"BOOLEAN", [16], .boolean⟩ (some (.other false)) [] =
      .ok (some (.globalScope, [(16, ⟨"BOOLEAN", [16], .boolean⟩)])) ∧
    (Except.ok (some (TCKind.globalScope,
        [((16 : Int), (⟨"BOOLEAN", [16], .boolean⟩ : TypeObj))])) :
      Except PyError (Option (TCKind × List (Int × TypeObj)))) ≠
      .error .invalidScope :=
  ⟨rfl, by simp⟩

/-- C10 (amended): during module initialization several identifiers are
registered more than once and each later registration overwrites the
earlier: after `NUMBER`, identifiers 1700, 20, 21, 701 and 700 are
bound to the float-parsing `NUMBER` descriptor, and after the whole
sequence 1700 dispatches to the decimal parser, 20 to the long-integer
parser, 23 and 21 to the integer parser, and 701 and 700 to the float
parser.  Identifier 23 is not among `NUMBER`'s identifiers — it is
bound only once, by `INTEGER`. -/
theorem default_registrations_overwrite :
    (List.lookup 1700 afterNumber = some NUMBER ∧
     List.lookup 20 afterNumber = some NUMBER ∧
     List.lookup 21 afterNumber = some NUMBER ∧
     List.lookup 701 afterNumber = some NUMBER ∧
     List.lookup 700 afterNumber = some NUMBER ∧
     NUMBER.caster = .float) ∧
    ((List.lookup 1700 string_types_init).map TypeObj.caster =
        some .decimal ∧
     (List.lookup 20 string_types_init).map TypeObj.caster =
        some .longinteger ∧
     (List.lookup 23 string_types_init).map TypeObj.caster =
        some .integer ∧
     (List.lookup 21 string_types_init).map TypeObj.caster =
        some .integer ∧
     (List.lookup 701 string_types_init).map TypeObj.caster =
        some .float ∧
     (List.lookup 700 string_types_init).map TypeObj.caster =
        some .float) ∧
    (23 : Int) ∉ NUMBER.values := by
  decide

/-- C10 counterexample: identifier 23 was never bound to the `NUMBER`
descriptor — it is not among `NUMBER`'s identifiers, and right after
`NUMBER`'s registration the global mapping has no entry for 23 — so
"all of these were first bound to the float-parsing NUMBER descriptor"
fails for 23. -/
theorem id_23_not_bound_by_number :
    (23 : Int) ∉ NUMBER.values ∧
    List.lookup 23 afterNumber = none := by
  decide

/-- C7: for every embedded scalar parser and every array parser, a null
raw value yields a null parsed value, whatever the length argument and
whatever the external conversion primitives or element caster. -/
theorem null_raw_yields_null :
    (∀ length, parse_unknown none length = .null) ∧
    (∀ length, parse_string none length = none) ∧
    (∀ length, parse_integer none length = .ok none) ∧
    (∀ length, parse_longinteger none length = .ok none) ∧
    (∀ (F : Type) (conv : List Char → Except PyError F) length,
      parse_float F conv none length = .ok none) ∧
    (∀ (F : Type) (conv : List Char → Except PyError F) length,
      parse_decimal F conv none length = .ok none) ∧
    (∀ (B : Type) (unescape : List Char → Except PyError B) length,
      parse_binary B unescape none length = .ok none) ∧
    (∀ length, parse_boolean none length = .ok none) ∧
    (∀ (U : Type) (decode : List Char → Except PyError U) length,
      parse_unicode U decode none length = .ok none) ∧
    (∀ length, parse_interval none length = .ok none) ∧
    (∀ (caster : ACaster) length,
      parse_array_cast caster none length = .ok .null) :=
  ⟨fun _ => rfl, fun _ => rfl, fun _ => rfl, fun _ => rfl,
   fun _ _ _ => rfl, fun _ _ _ => rfl, fun _ _ _ => rfl, fun _ => rfl,
   fun _ _ _ => rfl, fun _ => rfl, fun _ _ => rfl⟩

/-- C9: the boolean parser inspects only the first character — `t`
means true, anything else false, with no validation of the rest — and
the empty string hits the out-of-range subscript `value[0]` rather
than any conversion error. -/
theorem boolean_first_char :
    (∀ (c : Char) (t : List Char),
      parse_boolean (some (c :: t)) none = .ok (some (c = 't'))) ∧
    parse_boolean (some []) none = .error .indexError ∧
    parse_boolean (some ("true".toList)) none = .ok (some true) ∧
    parse_boolean (some ("tomato".toList)) none = .ok (some true) ∧
    parse_boolean (some ("x".toList)) none = .ok (some false) :=
  ⟨fun _ _ => rfl, rfl, rfl, rfl, rfl⟩

end Typecasts
